import Mathlib

/-!
# Verification of `packages/vite/src/node/server/middlewares/static.ts`

A shallow embedding of the static-serving middlewares of this repository:
`servePublicMiddleware`, `serveStaticMiddleware`, `serveRawFsMiddleware`
and the access-control guard `isFileServingRestricted`.

URLs and filesystem paths are Lean `String`s; all string operations are
carried out on the underlying character lists so that every definition
evaluates by kernel reduction.  The filesystem existence check
(`fs.existsSync`) is an external collaborator and is passed in as a
predicate `fsExists : String → Bool`.  The logger is modelled as explicit
state (`Logger`): `warn` appends unconditionally, `warnOnce` appends only
when the message was not emitted before (the warn-dedupe state).

Helper functions imported by `static.ts` from other modules of the
repository (`cleanUrl`, `isImportRequest`, `isInternalRequest`,
`normalizePath`, `ensureLeadingSlash`, `fsPathFromId`, `slash`,
`FS_PREFIX`) and the Node built-ins it uses (`path.extname`,
`path.resolve`, `decodeURI`, `String.replace` under a matched rule) are
not part of the given source tree; they are modelled from the spec, each
marked so in its doc comment.
-/

namespace ViteStatic

/-- JavaScript `s.startsWith(pre)`, computed on character lists. -/
def strStartsWith (s pre : String) : Bool :=
  pre.data.isPrefixOf s.data

/-- JavaScript `s.endsWith(post)`, computed on character lists. -/
def strEndsWith (s post : String) : Bool :=
  post.data.reverse.isPrefixOf s.data.reverse

/-- Drop the first `n` characters of a string. -/
def strDrop (s : String) (n : Nat) : String :=
  String.mk (s.data.drop n)

/-- True when `pat` occurs as a contiguous run inside the list. -/
def listContainsSeq (pat : List Char) : List Char → Bool
  | [] => pat.isEmpty
  | c :: rest => pat.isPrefixOf (c :: rest) || listContainsSeq pat rest

/-- True when `pat` occurs as a substring of `s`. -/
def hasSubstr (s pat : String) : Bool :=
  listContainsSeq pat.data s.data

/-- Split a character list at every occurrence of `sep` (the separators
are not kept; empty pieces are). -/
def splitOnChar (sep : Char) : List Char → List (List Char)
  | [] => [[]]
  | c :: rest =>
    let r := splitOnChar sep rest
    if c = sep then [] :: r
    else
      match r with
      | [] => [[c]]
      | h :: t => (c :: h) :: t

/-- The `/`-separated segments of a path. -/
def splitSlash (s : String) : List String :=
  (splitOnChar '/' s.data).map String.mk

/-- Rejoin path segments with `/`. -/
def joinSlash (segs : List String) : String :=
  String.mk (List.intercalate ['/'] (segs.map String.data))

/-- Modelled from the spec: `cleanUrl` removes the query/hash suffix of a
URL — everything from the first `?` or `#` onwards is dropped. -/
def cleanUrl (url : String) : String :=
  String.mk (url.data.takeWhile (fun c => c != '?' && c != '#'))

/-- Modelled from the spec: an "import" request carries the module
system's special query marker — `import` directly after `?` or `&` in the
URL. -/
def isImportRequest (url : String) : Bool :=
  hasSubstr url "?import" || hasSubstr url "&import"

/-- The reserved raw-filesystem URL prefix (`FS_PREFIX` from
`constants.ts`, modelled from the spec's "reserved URL prefix (e.g.
`/@fs/`)"). -/
def FS_PREFIX : String := "/@fs/"

/-- Modelled from the spec: an "internal" request addresses a reserved
client/runtime asset path (the source comment lists "`/@fs/ /@vite-client`
etc"). -/
def isInternalRequest (url : String) : Bool :=
  strStartsWith url FS_PREFIX || strStartsWith url "/@vite-client"

/-- Modelled from the spec: `slash` converts backslashes to forward
slashes. -/
def slash (p : String) : String :=
  String.mk (p.data.map (fun c => if c = '\\' then '/' else c))

/-- Segment collapse used by path normalization: drops empty and `.`
segments and resolves `..` against the accumulated stack (`acc` holds the
already-emitted segments in reverse).  On an absolute path a `..` at the
root is discarded, on a relative path it is kept. -/
def normCollapse (abs : Bool) (acc : List String) : List String → List String
  | [] => acc.reverse
  | seg :: rest =>
    if seg = "" ∨ seg = "." then normCollapse abs acc rest
    else if seg = ".." then
      match acc with
      | [] => if abs then normCollapse abs [] rest else normCollapse abs [".."] rest
      | a :: as =>
        if a = ".." then normCollapse abs (".." :: a :: as) rest
        else normCollapse abs as rest
    else normCollapse abs (seg :: acc) rest

/-- Modelled from the spec: `normalizePath` normalizes a path posix-style —
duplicate separators are removed and `.`/`..` segments are collapsed the
same way the native filesystem would resolve them. -/
def normalizePath (p : String) : String :=
  let abs := strStartsWith p "/"
  let body := joinSlash (normCollapse abs [] (splitSlash p))
  if abs then (if body = "" then "/" else "/" ++ body)
  else (if body = "" then "." else body)

/-- Modelled from the spec: `ensureLeadingSlash` prepends a `/` when the
path does not already start with one ("absolute, leading-slash form"). -/
def ensureLeadingSlash (p : String) : String :=
  if strStartsWith p "/" then p else "/" ++ p

/-- True when the string starts with a drive designator: a single ASCII
letter followed by `:`. -/
def startsWithDrive (s : String) : Bool :=
  match s.data with
  | c :: d :: _ => c.isAlpha && d = ':'
  | _ => false

/-- Modelled from the spec: `fsPathFromId` strips the reserved `/@fs/`
prefix from a raw-filesystem URL and yields an absolute path (a leading
slash is added unless the remainder is already absolute or starts with a
drive designator). -/
def fsPathFromId (id : String) : String :=
  let fsPath := slash (if strStartsWith id FS_PREFIX then strDrop id FS_PREFIX.length else id)
  if strStartsWith fsPath "/" || startsWithDrive fsPath then fsPath else "/" ++ fsPath

/-- Modelled from the spec: `path.resolve(base, p)` — an absolute `p`
stands on its own, a relative `p` is resolved against `base`; the result
collapses `.`/`..` segments. -/
def pathResolve (base p : String) : String :=
  if strStartsWith p "/" then normalizePath p
  else normalizePath (base ++ "/" ++ p)

/-- Modelled from the spec: Node's `path.extname` — the extension of the
last path segment, from its last `.` onwards; a lone leading dot (hidden
file) or a dotless name has no extension. -/
def extname (p : String) : String :=
  let base := (splitSlash p).getLastD ""
  match (splitOnChar '.' base.data).map String.mk with
  | [] => ""
  | [_] => ""
  | first :: rest =>
    if first = "" ∧ rest.length = 1 then ""
    else "." ++ rest.getLastD ""

/-- The strict-mode field `server.config.server.fs.strict` of type
`boolean | undefined`: `strictFalse` is the explicit `false` ("disabled"),
`strictUndef` the unset legacy "soft" state. -/
inductive FsStrict where
  | strictTrue
  | strictFalse
  | strictUndef
deriving DecidableEq, Repr

/-- The slice of `ViteDevServer` read by `static.ts`: the filesystem
serving policy (`config.server.fs`) and the module graph's safe-path set
(`moduleGraph.safeModulesPath`, modelled as a list queried by
membership). -/
structure Server where
  fsStrict : FsStrict
  fsAllow : List String
  safeModulesPath : List String
deriving Repr

/-- The logger state: `logs` is the sequence of emitted warnings, `warned`
the warn-dedupe state of message keys already emitted via `warnOnce`. -/
structure Logger where
  logs : List String
  warned : List String
deriving DecidableEq, Repr

/-- `logger.warn(msg)`: always appends the message. -/
def Logger.warn (lg : Logger) (msg : String) : Logger :=
  { lg with logs := lg.logs ++ [msg] }

/-- `logger.warnOnce(msg)`: appends the message only when it has not been
emitted through `warnOnce` before, and records it in the dedupe state. -/
def Logger.warnOnce (lg : Logger) (msg : String) : Logger :=
  if lg.warned.contains msg then lg
  else { logs := lg.logs ++ [msg], warned := lg.warned ++ [msg] }

/-- The first deprecation message of the soft-strict branch. -/
def unrestrictedAccessMsg (url : String) : String :=
  "Unrestricted file system access to \"" ++ url ++ "\""

/-- The second deprecation message of the soft-strict branch. -/
def futureRestrictMsg : String :=
  "For security concerns, accessing files outside of serving allow list will " ++
  "be restricted by default in the future version of Vite. " ++
  "Refer to https://vitejs.dev/config/#server-fs-allow for more details."

/-- The warning emitted when a request is restricted, listing the
allow-listed directories and the offending URL. -/
def restrictedWarnMsg (url : String) (allow : List String) : String :=
  "The request url \"" ++ url ++ "\" is outside of Vite serving allow list:\n\n" ++
  String.mk (List.intercalate ['\n'] ((allow.map (fun i => "- " ++ i)).map String.data)) ++
  "\n\nRefer to docs https://vitejs.dev/config/#server-fs-allow for configurations and more details."

/-- `isFileServingRestricted(url, server)` from `static.ts`, with the
filesystem existence check and the logger made explicit.  Mirrors the
source branch for branch:
`strict === false` → false; normalize; `fs.existsSync(file)` → false;
safe-set membership → false; allow-list prefix-plus-separator match →
false; `!strict` (soft state) → two `warnOnce` messages, false;
otherwise `warn` and true. -/
def isFileServingRestricted (url : String) (server : Server)
    (fsExists : String → Bool) (lg : Logger) : Bool × Logger :=
  if server.fsStrict = FsStrict.strictFalse then (false, lg)
  else
    let file := ensureLeadingSlash (normalizePath (cleanUrl url))
    if fsExists file then (false, lg)
    else if server.safeModulesPath.contains file then (false, lg)
    else if server.fsAllow.any (fun i => strStartsWith file (i ++ "/")) then (false, lg)
    else if server.fsStrict ≠ FsStrict.strictTrue then
      let lg1 := (lg.warnOnce (unrestrictedAccessMsg url)).warnOnce futureRestrictMsg
      (false, lg1)
    else
      (true, lg.warn (restrictedWarnMsg url server.fsAllow))

/-- An observable action of a middleware: consulting the access-control
guard on a resolved path, deferring to the next handler, or delegating to
the `sirv` file-transfer mechanism rooted at `root` with request URL
`url`. -/
inductive Ev where
  | guard (file : String) (restricted : Bool)
  | next
  | serve (root : String) (url : String)
deriving DecidableEq, Repr

/-- `servePublicMiddleware(dir)` applied to a request URL: import and
internal requests defer to the next handler, everything else is handed to
`sirv(dir)` with the URL untouched. -/
def servePublicMiddleware (dir : String) (url : String) (lg : Logger) :
    List Ev × Logger :=
  if isImportRequest url || isInternalRequest url then ([Ev.next], lg)
  else ([Ev.serve dir url], lg)

/-- The alias loop of `serveStaticMiddleware` (string `find` rules only —
the source also accepts patterns, which no rule list in the claims uses):
iterate the rules in configured order; the first rule whose `find` is a
leading piece of the URL rewrites it (under that match,
`url.replace(find, replacement)` substitutes the leading occurrence) and
the loop stops; with no match there is no rewrite. -/
def resolveAlias (aliasRules : List (String × String)) (url : String) : Option String :=
  match aliasRules with
  | [] => none
  | (find, repl) :: rest =>
    if strStartsWith url find then some (repl ++ strDrop url find.length)
    else resolveAlias rest url

/-- JavaScript `a || b` on an optional string: an absent or empty (falsy)
`a` yields `b`. -/
def jsOr (a : Option String) (b : String) : String :=
  match a with
  | some s => if s = "" then b else s
  | none => b

/-- `resolvedUrl.replace(/^\//, '')`: strip one leading slash. -/
def stripOneLeadingSlash (s : String) : String :=
  if strStartsWith s "/" then strDrop s 1 else s

/-- The skip test of `serveStaticMiddleware`: the URL ends with `/`, its
extension (query/hash removed) is `.html`, or it is an internal request. -/
def staticSkip (url : String) : Bool :=
  strEndsWith url "/" || extname (cleanUrl url) == ".html" || isInternalRequest url

/-- `serveStaticMiddleware(dir, server)` applied to a request URL.
`decode` stands for the external `decodeURI`.  Mirrors the source: skip
test; alias loop on the decoded URL; a truthy rewrite that starts with
`dir` loses that one leading occurrence; `path.resolve(dir, resolvedUrl)`
with one leading slash stripped, re-adding a trailing slash for directory
URLs; the guard defers restricted requests to the next handler; otherwise
a truthy rewrite is committed to `req.url` before delegating to `sirv`. -/
def serveStaticMiddleware (dir : String) (server : Server)
    (aliasRules : List (String × String)) (fsExists : String → Bool)
    (decode : String → String) (url0 : String) (lg : Logger) :
    List Ev × Logger :=
  if staticSkip url0 then ([Ev.next], lg)
  else
    let url := decode url0
    let redirected0 := resolveAlias aliasRules url
    let redirected := redirected0.map
      (fun r => if strStartsWith r dir then strDrop r dir.length else r)
    let resolvedUrl := jsOr redirected url
    let fileUrl0 := pathResolve dir (stripOneLeadingSlash resolvedUrl)
    let fileUrl :=
      if strEndsWith resolvedUrl "/" && !(strEndsWith fileUrl0 "/") then fileUrl0 ++ "/"
      else fileUrl0
    let res := isFileServingRestricted fileUrl server fsExists lg
    if res.1 then (Ev.guard fileUrl true :: [Ev.next], res.2)
    else (Ev.guard fileUrl false :: [Ev.serve dir (jsOr redirected url0)], res.2)

/-- `url.replace(/^[A-Z]:/i, '')`: strip a leading drive designator. -/
def stripDriveLetter (s : String) : String :=
  if startsWithDrive s then strDrop s 2 else s

/-- `serveRawFsMiddleware(server)` applied to a request URL.  Mirrors the
source exactly: a URL without the `/@fs/` prefix defers to the next
handler; otherwise the guard runs on the resolved absolute path and a
restricted request calls `next()` — but the source does not return there,
so it goes on to strip the prefix (and, on Windows, the drive designator)
and delegates to the `sirv` instance rooted at the OS root regardless. -/
def serveRawFsMiddleware (server : Server) (fsExists : String → Bool)
    (isWindows : Bool) (cwd : String) (url : String) (lg : Logger) :
    List Ev × Logger :=
  if strStartsWith url FS_PREFIX then
    let checked := slash (pathResolve cwd (fsPathFromId url))
    let res := isFileServingRestricted checked server fsExists lg
    let pre : List Ev := if res.1 then [Ev.next] else []
    let url1 := strDrop url FS_PREFIX.length
    let url2 := if isWindows then stripDriveLetter url1 else url1
    (Ev.guard checked res.1 :: pre ++ [Ev.serve "/" url2], res.2)
  else ([Ev.next], lg)

/-- C1: the claim says an existing path outside the allow list and outside
the safe set is restricted under `strict = true`; the code has the
existence check inverted (`if (fs.existsSync(file)) return false` under a
comment promising the opposite), so the guard answers `false` (not
restricted) for the existing path `/etc/passwd` outside the allow list
`["/app"]`, contradicting the claim. -/
theorem c1_existing_path_outside_allow_not_restricted :
    (isFileServingRestricted "/etc/passwd"
      ⟨FsStrict.strictTrue, ["/app"], []⟩
      (fun p => p == "/etc/passwd") ⟨[], []⟩).1 = false := by
  decide

/-- C2: the claim says a nonexistent path is never restricted; with the
inverted existence check a nonexistent path `/nope` outside the allow
list `["/app"]` under `strict = true` falls through every exemption and
the guard answers `true` (restricted), contradicting the claim. -/
theorem c2_nonexistent_path_restricted :
    (isFileServingRestricted "/nope"
      ⟨FsStrict.strictTrue, ["/app"], []⟩
      (fun _ => false) ⟨[], []⟩).1 = true := by
  decide

/-- C3: the claim says a restricted `/@fs/` request is deferred to the
next handler and never also served; the source calls `next()` on a
restricted path but does not return, so the raw-filesystem middleware
emits both the deferral and the delegation to the root-mounted server:
the event trace shows the guard answering restricted, then `next`, then
`serve` — the double dispatch the claim rules out. -/
theorem c3_raw_fs_restricted_double_dispatch :
    (serveRawFsMiddleware ⟨FsStrict.strictTrue, [], []⟩
      (fun _ => false) false "/" "/@fs/secret.txt" ⟨[], []⟩).1 =
    [Ev.guard "/secret.txt" true, Ev.next, Ev.serve "/" "secret.txt"] := by
  decide

/-- C4: with strict mode explicitly disabled (`strict = false`) the guard
returns `false` for every path, regardless of the allow list, the safe
set, and existence. -/
theorem c4_strict_disabled_not_restricted (url : String) (server : Server)
    (fsExists : String → Bool) (lg : Logger)
    (h : server.fsStrict = FsStrict.strictFalse) :
    (isFileServingRestricted url server fsExists lg).1 = false := by
  simp [isFileServingRestricted, h]

/-- Witness for C4 at the existing path `/etc/shadow` with a nonempty
allow list. -/
theorem c4_strict_disabled_not_restricted_witness :
    (isFileServingRestricted "/etc/shadow"
      ⟨FsStrict.strictFalse, ["/app"], []⟩
      (fun _ => true) ⟨[], []⟩).1 = false :=
  c4_strict_disabled_not_restricted "/etc/shadow"
    ⟨FsStrict.strictFalse, ["/app"], []⟩ (fun _ => true) ⟨[], []⟩ rfl

/-- C5 counterexample: the claim includes exact equality with an
allow-listed directory, but the code only tests `file.startsWith(i + '/')`;
for the path `/allowed` equal to the single allow-list entry `/allowed`
(nonexistent, not in the safe set, `strict = true`) the guard answers
`true` (restricted), so the equality case of the claim is false. -/
theorem c5_allow_equal_dir_restricted_cex :
    (isFileServingRestricted "/allowed"
      ⟨FsStrict.strictTrue, ["/allowed"], []⟩
      (fun _ => false) ⟨[], []⟩).1 = true := by
  decide

/-- C5 (amended): a path whose normalized form is a strict descendant of
some allow-listed directory — the directory plus a `/` separator is a
leading piece of the path — is never restricted; exact equality with the
directory is not exempted. -/
theorem c5_allow_descendant_not_restricted (url : String) (server : Server)
    (fsExists : String → Bool) (lg : Logger)
    (h : ∃ i ∈ server.fsAllow,
      strStartsWith (ensureLeadingSlash (normalizePath (cleanUrl url))) (i ++ "/") = true) :
    (isFileServingRestricted url server fsExists lg).1 = false := by
  have hany : server.fsAllow.any
      (fun i => strStartsWith (ensureLeadingSlash (normalizePath (cleanUrl url))) (i ++ "/")) = true :=
    List.any_eq_true.mpr (by obtain ⟨i, hi, hp⟩ := h; exact ⟨i, hi, hp⟩)
  simp only [isFileServingRestricted]
  repeat' split
  all_goals first
    | rfl
    | exact absurd hany (by assumption)

/-- Witness for the amended C5 at `/allowed/sub.txt` under the allow-list
entry `/allowed`. -/
theorem c5_allow_descendant_not_restricted_witness :
    (isFileServingRestricted "/allowed/sub.txt"
      ⟨FsStrict.strictTrue, ["/allowed"], []⟩
      (fun _ => false) ⟨[], []⟩).1 = false :=
  c5_allow_descendant_not_restricted "/allowed/sub.txt"
    ⟨FsStrict.strictTrue, ["/allowed"], []⟩ (fun _ => false) ⟨[], []⟩
    ⟨"/allowed", by decide, by decide⟩

/-- C6: a path whose normalized form is a member of the safe path set
(`moduleGraph.safeModulesPath`) is never restricted, even outside every
allow-listed directory. -/
theorem c6_safe_module_path_not_restricted (url : String) (server : Server)
    (fsExists : String → Bool) (lg : Logger)
    (h : server.safeModulesPath.contains
      (ensureLeadingSlash (normalizePath (cleanUrl url))) = true) :
    (isFileServingRestricted url server fsExists lg).1 = false := by
  simp only [isFileServingRestricted]
  repeat' split
  all_goals first
    | rfl
    | exact absurd h (by assumption)

/-- Witness for C6 at `/outside/mod.js`, a safe-set member outside the
allow list `["/app"]`. -/
theorem c6_safe_module_path_not_restricted_witness :
    (isFileServingRestricted "/outside/mod.js"
      ⟨FsStrict.strictTrue, ["/app"], ["/outside/mod.js"]⟩
      (fun _ => false) ⟨[], []⟩).1 = false :=
  c6_safe_module_path_not_restricted "/outside/mod.js"
    ⟨FsStrict.strictTrue, ["/app"], ["/outside/mod.js"]⟩ (fun _ => false) ⟨[], []⟩
    (by decide)

/-- C7: alias resolution applies rules in configured order and stops at
the first match: with rules `[("/a", "/x"), ("/a/b", "/y")]` the URL
`/a/b/c` rewrites to `/x/b/c`, and — whatever rules follow the matching
first rule — the result is the same, so rules after a successful match
are never consulted. -/
theorem c7_alias_first_match_wins :
    resolveAlias [("/a", "/x"), ("/a/b", "/y")] "/a/b/c" = some "/x/b/c" ∧
    ∀ rest : List (String × String),
      resolveAlias (("/a", "/x") :: rest) "/a/b/c" = some "/x/b/c" := by
  refine ⟨by decide, fun rest => ?_⟩
  have h : strStartsWith "/a/b/c" "/a" = true := by decide
  simp only [resolveAlias, h, if_true]
  decide

/-- C8 counterexample: the claim says the project-root static middleware
skips import requests; its skip test only covers trailing `/`, `.html`
extension and internal requests, so the import request `/foo.js?import`
is not deferred — the middleware runs the guard and delegates to the
file server. -/
theorem c8_import_request_not_skipped_cex :
    isImportRequest "/foo.js?import" = true ∧
    (serveStaticMiddleware "/root" ⟨FsStrict.strictFalse, [], []⟩ []
      (fun _ => false) id "/foo.js?import" ⟨[], []⟩).1 =
    [Ev.guard "/root/foo.js?import" false, Ev.serve "/root" "/foo.js?import"] := by
  constructor
  · decide
  · decide

/-- C8 (amended): the static middleware does not treat import requests
specially — an import-request URL that does not end in `/`, has no
`.html` extension and is not internal is processed like any other request
(alias resolution, access check and dispatch) instead of being deferred
untouched to the next handler. -/
theorem c8_import_request_processed (dir : String) (server : Server)
    (aliasRules : List (String × String)) (fsExists : String → Bool)
    (decode : String → String) (url : String) (lg : Logger)
    (h0 : isImportRequest url = true)
    (h1 : strEndsWith url "/" = false)
    (h2 : extname (cleanUrl url) ≠ ".html")
    (h3 : isInternalRequest url = false) :
    (serveStaticMiddleware dir server aliasRules fsExists decode url lg).1 ≠ [Ev.next] := by
  have hskip : staticSkip url = false := by
    simp [staticSkip, h1, h3, h2]
  simp only [serveStaticMiddleware, hskip]
  split
  · simp_all
  · split <;> split <;> simp

/-- Witness for the amended C8 at the import request `/foo.js?import`. -/
theorem c8_import_request_processed_witness :
    (serveStaticMiddleware "/root" ⟨FsStrict.strictTrue, ["/root"], []⟩ []
      (fun _ => false) id "/foo.js?import" ⟨[], []⟩).1 ≠ [Ev.next] :=
  c8_import_request_processed "/root" ⟨FsStrict.strictTrue, ["/root"], []⟩ []
    (fun _ => false) id "/foo.js?import" ⟨[], []⟩
    (by decide) (by decide) (by decide) (by decide)

/-- C9 counterexample: the claim says the restricted-branch warning is
deduplicated by message content; the source emits it with the plain
`warn`, so two identical restricted requests starting from an empty
logger leave the same message in the log twice. -/
theorem c9_restricted_warning_logged_twice_cex :
    ((isFileServingRestricted "/secret" ⟨FsStrict.strictTrue, ["/root"], []⟩
        (fun _ => false)
        ((isFileServingRestricted "/secret" ⟨FsStrict.strictTrue, ["/root"], []⟩
          (fun _ => false) ⟨[], []⟩).2)).2).logs =
    [restrictedWarnMsg "/secret" ["/root"],
     restrictedWarnMsg "/secret" ["/root"]] := by
  set_option maxRecDepth 10000 in decide

/-- C9 (amended): only the soft-strict deprecation warnings are
deduplicated by message content through the warn-dedupe state
(`warnOnce`); the restricted-branch warning is emitted with the plain
`warn` and repeats.  Running the guard twice in the soft state on the
same URL leaves each deprecation message in the log exactly once. -/
theorem c9_soft_warnings_deduped :
    ((isFileServingRestricted "/soft" ⟨FsStrict.strictUndef, [], []⟩
        (fun _ => false)
        ((isFileServingRestricted "/soft" ⟨FsStrict.strictUndef, [], []⟩
          (fun _ => false) ⟨[], []⟩).2)).2).logs =
    [unrestrictedAccessMsg "/soft", futureRestrictMsg] := by
  set_option maxRecDepth 10000 in decide

/-- C10: the public-directory middleware never consults the
access-control guard: a request that is neither an import request nor an
internal request is delegated directly to the file server with the URL
unchanged and the logger untouched — its trace holds a single `serve`
action and no guard action. -/
theorem c10_public_middleware_serves_directly (dir url : String) (lg : Logger)
    (h1 : isImportRequest url = false)
    (h2 : isInternalRequest url = false) :
    servePublicMiddleware dir url lg = ([Ev.serve dir url], lg) := by
  simp [servePublicMiddleware, h1, h2]

/-- Witness for C10 at the plain asset URL `/icons/logo.png`. -/
theorem c10_public_middleware_serves_directly_witness :
    servePublicMiddleware "/public" "/icons/logo.png" ⟨[], []⟩ =
    ([Ev.serve "/public" "/icons/logo.png"], (⟨[], []⟩ : Logger)) :=
  c10_public_middleware_serves_directly "/public" "/icons/logo.png" ⟨[], []⟩
    (by decide) (by decide)

end ViteStatic
